import Mathlib

/-!
Verification of the transparent Redis proxy (AUTH interception, session
forwarding and the upstream connection pool).

Byte strings are modelled as `List Nat` (byte values); decoded Python
strings are modelled as `List Nat` of Unicode code points.  `bytes.decode
("utf-8", errors="ignore")` and `str.encode("utf-8")` are embedded
explicitly, so the model is total on arbitrary binary input, exactly like
the source, whose `intercept_auth_command` wraps its body in a catch-all
`try`/`except` returning `(data, False)`.
-/

namespace RedisProxy

/-- Code points of a Lean string literal (used to transcribe the source's
ASCII string literals). -/
def cp (s : String) : List Nat := s.toList.map Char.toNat

/-- `isPre pat l` : `pat` is a prefix of `l` (Python `str.startswith` on a
full pattern; also the inner step of substring search). -/
def isPre : List Nat → List Nat → Bool
  | [], _ => true
  | _ :: _, [] => false
  | a :: as, b :: bs => a == b && isPre as bs

/-- `containsTok hay pat` : Python `pat in hay` (contiguous substring). -/
def containsTok : List Nat → List Nat → Bool
  | [], pat => pat.isEmpty
  | h :: t, pat => isPre pat (h :: t) || containsTok t pat

/-- Python `s.split("\r\n")`: split on the two-character separator,
left to right, non-overlapping; `"".split` gives `[""]`, a trailing
separator yields a final empty piece. -/
def splitCRLF : List Nat → List (List Nat)
  | [] => [[]]
  | 13 :: 10 :: rest => [] :: splitCRLF rest
  | b :: rest =>
    match splitCRLF rest with
    | [] => [[b]]
    | h :: t => (b :: h) :: t

/-- Python `"\r\n".join(parts)`. -/
def joinCRLF : List (List Nat) → List Nat
  | [] => []
  | [x] => x
  | x :: xs => x ++ [13, 10] ++ joinCRLF xs

/-- Python `str.lower()` restricted to the ASCII range.  The lowered
string is only used to match the ASCII patterns `*5\r\n$5\r\nhello\r\n`
and `$4\r\nauth\r\n`; no non-ASCII code point lowercases (in Python) to
any letter of those patterns, so the restriction does not change which
buffers the recognizer's HELLO test accepts. -/
def lowerCP (s : List Nat) : List Nat :=
  s.map fun c => if 65 ≤ c ∧ c ≤ 90 then c + 32 else c

/-- Is `b` a UTF-8 continuation byte (`0x80..0xBF`)? -/
def isCont (b : Nat) : Bool := 128 ≤ b && b ≤ 191

/-- Valid second byte of a three-byte UTF-8 sequence led by `b1`
(`0xE0` requires `0xA0..0xBF`, `0xED` requires `0x80..0x9F`). -/
def cont3ok (b1 b2 : Nat) : Bool :=
  if b1 == 224 then 160 ≤ b2 && b2 ≤ 191
  else if b1 == 237 then 128 ≤ b2 && b2 ≤ 159
  else isCont b2

/-- Valid second byte of a four-byte UTF-8 sequence led by `b1`
(`0xF0` requires `0x90..0xBF`, `0xF4` requires `0x80..0x8F`). -/
def cont4ok (b1 b2 : Nat) : Bool :=
  if b1 == 240 then 144 ≤ b2 && b2 ≤ 191
  else if b1 == 244 then 128 ≤ b2 && b2 ≤ 143
  else isCont b2

/-- Worker for `utf8DecodeIgnore`, structurally recursive on a fuel
argument; each step consumes at least one input byte, so fuel equal to
the input length computes the full decode. -/
def utf8DecodeIgnoreAux : Nat → List Nat → List Nat
  | 0, _ => []
  | _ + 1, [] => []
  | fuel + 1, b :: rest =>
    if b < 128 then b :: utf8DecodeIgnoreAux fuel rest
    else if 194 ≤ b && b ≤ 223 then
      match rest with
      | [] => []
      | b2 :: rest2 =>
        if isCont b2 then ((b - 192) * 64 + (b2 - 128)) :: utf8DecodeIgnoreAux fuel rest2
        else utf8DecodeIgnoreAux fuel rest
    else if 224 ≤ b && b ≤ 239 then
      match rest with
      | [] => []
      | b2 :: rest2 =>
        if cont3ok b b2 then
          match rest2 with
          | [] => []
          | b3 :: rest3 =>
            if isCont b3 then
              ((b - 224) * 4096 + (b2 - 128) * 64 + (b3 - 128)) :: utf8DecodeIgnoreAux fuel rest3
            else utf8DecodeIgnoreAux fuel rest2
        else utf8DecodeIgnoreAux fuel rest
    else if 240 ≤ b && b ≤ 244 then
      match rest with
      | [] => []
      | b2 :: rest2 =>
        if cont4ok b b2 then
          match rest2 with
          | [] => []
          | b3 :: rest3 =>
            if isCont b3 then
              match rest3 with
              | [] => []
              | b4 :: rest4 =>
                if isCont b4 then
                  ((b - 240) * 262144 + (b2 - 128) * 4096 + (b3 - 128) * 64 + (b4 - 128)) ::
                    utf8DecodeIgnoreAux fuel rest4
                else utf8DecodeIgnoreAux fuel rest3
            else utf8DecodeIgnoreAux fuel rest2
        else utf8DecodeIgnoreAux fuel rest
    else utf8DecodeIgnoreAux fuel rest

/-- Python `bytes.decode("utf-8", errors="ignore")`: well-formed
sequences decode to their code point; ill-formed input is skipped (the
maximal valid subpart of a sequence is consumed and dropped, at least one
byte). -/
def utf8DecodeIgnore (data : List Nat) : List Nat :=
  utf8DecodeIgnoreAux data.length data

/-- UTF-8 encoding of one code point (Python `str.encode("utf-8")`,
applied pointwise). -/
def utf8EncodeChar (c : Nat) : List Nat :=
  if c < 128 then [c]
  else if c < 2048 then [192 + c / 64, 128 + c % 64]
  else if c < 65536 then [224 + c / 4096, 128 + (c / 64) % 64, 128 + c % 64]
  else [240 + c / 262144, 128 + (c / 4096) % 64, 128 + (c / 64) % 64, 128 + c % 64]

/-- Python `str.encode("utf-8")` over a code-point list. -/
def utf8Encode (s : List Nat) : List Nat := (s.map utf8EncodeChar).flatten

/-- Decimal digits (as code points) of a natural number, Python
`f"{n}"`. -/
def natDec (n : Nat) : List Nat := (Nat.toDigits 10 n).map Char.toNat

/-- The configuration fields `intercept_auth_command` reads
(`src/config.py` `Config`): Python strings modelled as code-point
lists, optional fields as `Option`. -/
structure Config where
  proxy_password : List Nat
  redis_username : Option (List Nat)
  redis_password : Option (List Nat)
deriving DecidableEq

/-- `get_redis_password`: `self.config.redis_password or ''` (a `None`
or empty password both give the empty string). -/
def getRedisPassword (cfg : Config) : List Nat :=
  match cfg.redis_password with
  | none => []
  | some p => p

/-- `self.config.redis_username or "default"` (Python `or`: `None` and
the empty string both fall back to `"default"`). -/
def redisUsername (cfg : Config) : List Nat :=
  match cfg.redis_username with
  | none => cp "default"
  | some u => if u = [] then cp "default" else u

/-- The literal error reply `b"-ERR invalid password\r\n"`. -/
def errBytes : List Nat := cp "-ERR invalid password\r\n"

/-- Python `parts[i].startswith('$')`. -/
def startsDollar : List Nat → Bool
  | 36 :: _ => true
  | _ => false

/-- The HELLO-branch test of `intercept_auth_command`:
`'*5\r\n$5\r\nhello\r\n' in data_str.lower() and '$4\r\nauth\r\n' in
data_str.lower()` — case-insensitive via lowering. -/
def helloDetected (s : List Nat) : Bool :=
  containsTok (lowerCP s) (cp "*5\r\n$5\r\nhello\r\n") &&
    containsTok (lowerCP s) (cp "$4\r\nauth\r\n")

/-- The two-element AUTH test: `'*2\r\n$4\r\nAUTH\r\n$' in data_str`
(case-sensitive: the un-lowered string is searched). -/
def auth2Detected (s : List Nat) : Bool := containsTok s (cp "*2\r\n$4\r\nAUTH\r\n$")

/-- The three-element AUTH test: `'*3\r\n$4\r\nAUTH\r\n' in data_str`
(case-sensitive). -/
def auth3Detected (s : List Nat) : Bool := containsTok s (cp "*3\r\n$4\r\nAUTH\r\n")

/-- The replacement command built by the `*2`/`*3` branches:
`f"*3\r\n$4\r\nAUTH\r\n${ulen}\r\n{user}\r\n${plen}\r\n{pw}\r\n"` with
the upstream username and password (lengths are Python `len(str)`,
i.e. code-point counts). -/
def auth3Rewrite (cfg : Config) : List Nat :=
  let u := redisUsername cfg
  let p := getRedisPassword cfg
  cp "*3\r\n$4\r\nAUTH\r\n$" ++ natDec u.length ++ [13, 10] ++ u ++ [13, 10] ++
    [36] ++ natDec p.length ++ [13, 10] ++ p ++ [13, 10]

/-- `AuthInterceptor.intercept_auth_command` (`src/auth.py:24-106`,
textually identical in `src/proxy.py:148-230`): decode the buffer with
errors ignored, test the HELLO / `*2` AUTH / `*3` AUTH patterns in that
order (an `if`/`elif` chain — a matched branch whose inner guards fail
falls to the final `return data, False`, not to the next pattern),
validate the extracted password against the proxy password, and either
reject with `errBytes`, rewrite, or return the input unchanged. -/
def intercept (cfg : Config) (data : List Nat) : List Nat × Bool :=
  let s := utf8DecodeIgnore data
  if helloDetected s then
    let parts := splitCRLF s
    if parts.length ≥ 12 then
      if startsDollar (parts.getD (parts.length - 3) []) then
        let provided := parts.getD (parts.length - 2) []
        if provided ≠ cfg.proxy_password then (errBytes, true)
        else
          let p := getRedisPassword cfg
          let newParts :=
            (parts.set (parts.length - 3) (36 :: natDec p.length)).set (parts.length - 2) p
          (utf8Encode (joinCRLF newParts), true)
      else (data, false)
    else (data, false)
  else if auth2Detected s then
    let parts := splitCRLF s
    if parts.length ≥ 6 then
      let provided := parts.getD 5 []
      if provided ≠ cfg.proxy_password then (errBytes, true)
      else (utf8Encode (auth3Rewrite cfg), true)
    else (data, false)
  else if auth3Detected s then
    let parts := splitCRLF s
    if parts.length ≥ 8 then
      if startsDollar (parts.getD (parts.length - 3) []) then
        let provided := parts.getD (parts.length - 2) []
        if provided ≠ cfg.proxy_password then (errBytes, true)
        else (utf8Encode (auth3Rewrite cfg), true)
      else (data, false)
    else (data, false)
  else (data, false)

/-- The password the recognizer extracts when a pattern is detected and
the branch's parse guards pass, `none` otherwise.  Mirrors the branch
selection and guards of `intercept` over the decoded buffer. -/
def providedPassword (s : List Nat) : Option (List Nat) :=
  if helloDetected s then
    let parts := splitCRLF s
    if parts.length ≥ 12 then
      if startsDollar (parts.getD (parts.length - 3) []) then
        some (parts.getD (parts.length - 2) [])
      else none
    else none
  else if auth2Detected s then
    let parts := splitCRLF s
    if parts.length ≥ 6 then some (parts.getD 5 []) else none
  else if auth3Detected s then
    let parts := splitCRLF s
    if parts.length ≥ 8 then
      if startsDollar (parts.getD (parts.length - 3) []) then
        some (parts.getD (parts.length - 2) [])
      else none
    else none
  else none

/-- `TransparentRedisProxy.forward_data` (`src/proxy.py:233-251`) in the
`client->server` direction with `intercept_auth=True`, as a function of
the successive buffers `recv` returns: an empty buffer is EOF and stops
the loop; every buffer runs through `intercept_auth_command`; if it was
intercepted and starts with `-ERR`, the reply is sent back to the client
and the loop breaks before anything reaches upstream; otherwise the
(possibly rewritten) bytes go to upstream.  Result: (buffers sent
upstream, error reply sent back to the client, if any). -/
def forwardData (cfg : Config) : List (List Nat) → List (List Nat) × Option (List Nat)
  | [] => ([], none)
  | data :: rest =>
    if data = [] then ([], none)
    else
      let r := intercept cfg data
      if r.2 && isPre (cp "-ERR") r.1 then ([], some r.1)
      else
        let w := forwardData cfg rest
        (r.1 :: w.1, w.2)

/-! ### Upstream connection pool (`src/pool.py`)

The pool's operations are embedded as pure state transformers.  The
outcomes of the I/O they perform (connection creation succeeding, a
health-check PING answered) are inputs — oracle arguments — so an
operation sequence together with its oracles determines the final state
deterministically, mirroring one interleaving-free execution. -/

/-- The `self.stats` dictionary of `AsyncConnectionPool`.  All fields
are Python ints; `current_size` can be decremented, so it is an `Int`. -/
structure PoolStats where
  created : Nat
  reused : Nat
  failedHealthChecks : Nat
  poolHits : Nat
  poolMisses : Nat
  connectionsClosed : Nat
  currentSize : Int
deriving DecidableEq

/-- Pool state: `self.size` (capacity of the `asyncio.Queue`), the idle
queue (front = next `get_nowait`), a fresh-id counter naming created
connections, and the statistics. -/
structure PoolState where
  size : Nat
  queue : List Nat
  nextId : Nat
  stats : PoolStats
deriving DecidableEq

/-- A pool as constructed by `__init__`: empty queue, all counters 0. -/
def freshPool (m : Nat) : PoolState := ⟨m, [], 0, ⟨0, 0, 0, 0, 0, 0, 0⟩⟩

/-- `asyncio.Queue.put_nowait` succeeds iff the queue is unbounded
(`maxsize <= 0` means infinite in asyncio) or below capacity. -/
def putOk (s : PoolState) : Bool := s.size == 0 || s.queue.length < s.size

/-- The borrow loop of `AsyncConnectionPool.get` (`pool.py:177-207`):
pop connections non-blockingly; each pop counts a `pool_hits` and
decrements `current_size`; a healthy pop counts `reused` and is
returned; an unhealthy one counts `failed_health_checks` and
`connections_closed`, is closed, and the loop continues; on an empty
queue count a `pool_misses` and leave the loop.  `hs` supplies the
health-check outcomes of the successive pops. -/
def getLoop : List Nat → List Bool → PoolStats → Option Nat × List Nat × PoolStats
  | [], _, st => (none, [], { st with poolMisses := st.poolMisses + 1 })
  | c :: q, hs, st =>
    let st1 := { st with poolHits := st.poolHits + 1, currentSize := st.currentSize - 1 }
    if hs.headD false then
      (some c, q, { st1 with reused := st1.reused + 1 })
    else
      getLoop q hs.tail
        { st1 with failedHealthChecks := st1.failedHealthChecks + 1,
                   connectionsClosed := st1.connectionsClosed + 1 }

/-- The pool's failure mode surfaced to callers: `raise ConnectionError`
when a fresh connection cannot be created. -/
inductive PoolError where
  | connectionError
deriving DecidableEq

/-- `AsyncConnectionPool.get` (`pool.py:174-220`): run the borrow loop;
if it yields no pooled connection, create a fresh one (`createOk` is the
outcome of `_create_connection`), incrementing `created` on success and
raising `ConnectionError` on failure.  Returns the result together with
the pool state after the call (statistics mutations precede the raise,
so they survive a failed borrow). -/
def poolGet (hs : List Bool) (createOk : Bool) (s : PoolState) :
    Except PoolError Nat × PoolState :=
  match getLoop s.queue hs s.stats with
  | (some c, q, st) => (.ok c, { s with queue := q, stats := st })
  | (none, q, st) =>
    if createOk then
      (.ok s.nextId,
        { s with queue := q, nextId := s.nextId + 1,
                 stats := { st with created := st.created + 1 } })
    else (.error .connectionError, { s with queue := q, stats := st })

/-- `AsyncConnectionPool.release` (`pool.py:222-258`): an unhealthy
connection is closed and counted; a healthy one is enqueued when
`put_nowait` succeeds (incrementing `current_size`), and closed and
counted on `QueueFull`. -/
def releaseStep (c : Nat) (healthy : Bool) (s : PoolState) : PoolState :=
  if !healthy then
    { s with stats :=
        { s.stats with failedHealthChecks := s.stats.failedHealthChecks + 1,
                       connectionsClosed := s.stats.connectionsClosed + 1 } }
  else if putOk s then
    { s with queue := s.queue ++ [c],
             stats := { s.stats with currentSize := s.stats.currentSize + 1 } }
  else
    { s with stats :=
        { s.stats with connectionsClosed := s.stats.connectionsClosed + 1 } }

/-- `AsyncConnectionPool._create_connection_for_prewarm`
(`pool.py:90-100`): on creation success, `await put` the connection and
increment `current_size` and `created`; failure is swallowed.  A
blocking `put` on a full bounded queue never completes, so a completed
prewarm on a full pool leaves no state change to observe. -/
def prewarmStep (ok : Bool) (s : PoolState) : PoolState :=
  if ok then
    if putOk s then
      { s with queue := s.queue ++ [s.nextId], nextId := s.nextId + 1,
               stats := { s.stats with currentSize := s.stats.currentSize + 1,
                                       created := s.stats.created + 1 } }
    else s
  else s

/-- The sweep of `_cleanup_unhealthy_connections` (`pool.py:271-304`)
over the drained connections: healthy ones are re-enqueued when space
permits (a `QueueFull` closes the connection with no statistics
update), unhealthy ones are closed, counted, and `current_size` is
decremented. -/
def cleanupLoop (m : Nat) : List Nat → List Bool → List Nat → PoolStats → List Nat × PoolStats
  | [], _, q, st => (q, st)
  | c :: rest, hs, q, st =>
    if hs.headD false then
      if m == 0 || q.length < m then cleanupLoop m rest hs.tail (q ++ [c]) st
      else cleanupLoop m rest hs.tail q st
    else
      cleanupLoop m rest hs.tail q
        { st with failedHealthChecks := st.failedHealthChecks + 1,
                  connectionsClosed := st.connectionsClosed + 1,
                  currentSize := st.currentSize - 1 }

/-- `_cleanup_unhealthy_connections`: drain the whole queue into a
scratch list, then sweep it back. -/
def maintenanceStep (hs : List Bool) (s : PoolState) : PoolState :=
  let r := cleanupLoop s.size s.queue hs [] s.stats
  { s with queue := r.1, stats := r.2 }

/-- `AsyncConnectionPool.shutdown` (`pool.py:57-74`): every idle
connection is dequeued and closed; no statistics are updated. -/
def shutdownStep (s : PoolState) : PoolState := { s with queue := [] }

/-- One pool operation together with the outcomes of the I/O it
performs. -/
inductive PoolOp where
  | prewarm (ok : Bool)
  | get (healths : List Bool) (createOk : Bool)
  | release (conn : Nat) (healthy : Bool)
  | maintenance (healths : List Bool)
  | shutdown
deriving DecidableEq

/-- The pool state after one operation completes. -/
def stepState (s : PoolState) (op : PoolOp) : PoolState :=
  match op with
  | .prewarm ok => prewarmStep ok s
  | .get hs c => (poolGet hs c s).2
  | .release c h => releaseStep c h s
  | .maintenance hs => maintenanceStep hs s
  | .shutdown => shutdownStep s

/-- The pool state after a sequence of operations. -/
def runOps (s : PoolState) (ops : List PoolOp) : PoolState := ops.foldl stepState s

/-! ### Health check (`AsyncConnectionPool._is_connection_healthy`) -/

/-- The observable state of one pooled connection at health-check time:
whether the write half is closing, whether the transport exposes its
socket, the socket's `SO_ERROR`, and the outcome of the PING round trip
(`none` models an I/O error or a timeout during write, drain or read;
`some r` the bytes read back). -/
structure ConnProbe where
  closing : Bool
  sockPresent : Bool
  soError : Nat
  pingReply : Option (List Nat)
deriving DecidableEq

/-- The health-check probe `b'*1\r\n$4\r\nPING\r\n'`. -/
def pingBytes : List Nat := cp "*1\r\n$4\r\nPING\r\n"

/-- The expected reply `b'+PONG\r\n'`. -/
def pongBytes : List Nat := cp "+PONG\r\n"

/-- `_is_connection_healthy` (`pool.py:135-172`): false if the writer is
closing, if no underlying socket is exposed, or if `SO_ERROR` is
nonzero; otherwise PING is written and the check succeeds iff the reply
equals `+PONG\r\n` exactly; any error or timeout (reply `none`) gives
false.  Total — every exception path returns `False`. -/
def isConnectionHealthy (c : ConnProbe) : Bool :=
  if c.closing then false
  else if !c.sockPresent then false
  else if c.soError ≠ 0 then false
  else
    match c.pingReply with
    | none => false
    | some r => r == pongBytes

/-- Whether the check reaches `writer.write(b'*1\r\n$4\r\nPING\r\n')`:
exactly when the writer is not closing, the socket is exposed and
`SO_ERROR` is zero. -/
def healthCheckPingSent (c : ConnProbe) : Bool :=
  !c.closing && c.sockPresent && c.soError == 0

/-! ### Concrete fixtures (the spec's end-to-end scenario values) -/

/-- The spec's scenario configuration: `proxy_password="secret"`,
`upstream_user="default"`, `upstream_password="up"`. -/
def cfgSecret : Config := ⟨cp "secret", some (cp "default"), some (cp "up")⟩

/-- A configuration whose proxy password matches none of the scenario
passwords. -/
def cfgOther : Config := ⟨cp "hunter2", some (cp "default"), some (cp "up")⟩

/-- The canonical single-argument AUTH frame of scenario 1. -/
def auth2Frame : List Nat := cp "*2\r\n$4\r\nAUTH\r\n$6\r\nsecret\r\n"

/-- Scenario 2's two-argument AUTH frame. -/
def auth3Frame : List Nat := cp "*3\r\n$4\r\nAUTH\r\n$5\r\nalice\r\n$6\r\nsecret\r\n"

/-- `auth3Frame` with the command token lowercased. -/
def auth3FrameLower : List Nat := cp "*3\r\n$4\r\nauth\r\n$5\r\nalice\r\n$6\r\nsecret\r\n"

/-- `auth2Frame` with the command token lowercased. -/
def auth2FrameLower : List Nat := cp "*2\r\n$4\r\nauth\r\n$6\r\nsecret\r\n"

/-- A two-argument AUTH frame carrying a wrong password. -/
def auth3FrameWrong : List Nat := cp "*3\r\n$4\r\nAUTH\r\n$5\r\nalice\r\n$5\r\nwrong\r\n"

/-- Scenario 4's HELLO frame, commands uppercased. -/
def helloFrameUpper : List Nat :=
  cp "*5\r\n$5\r\nHELLO\r\n$1\r\n3\r\n$4\r\nAUTH\r\n$7\r\ndefault\r\n$6\r\nsecret\r\n"

/-- Scenario 4's HELLO frame, commands lowercased. -/
def helloFrameLower : List Nat :=
  cp "*5\r\n$5\r\nhello\r\n$1\r\n3\r\n$4\r\nauth\r\n$7\r\ndefault\r\n$6\r\nsecret\r\n"

/-- The rewritten frame the working branches emit under `cfgSecret`. -/
def rewrittenFrame : List Nat := cp "*3\r\n$4\r\nAUTH\r\n$7\r\ndefault\r\n$2\r\nup\r\n"

/-- Componentwise order on the six cumulative counters (`current_size`
is a gauge and not claimed monotone). -/
def statsLE (a b : PoolStats) : Prop :=
  a.created ≤ b.created ∧ a.reused ≤ b.reused ∧
    a.failedHealthChecks ≤ b.failedHealthChecks ∧ a.poolHits ≤ b.poolHits ∧
    a.poolMisses ≤ b.poolMisses ∧ a.connectionsClosed ≤ b.connectionsClosed

/-- Prewarm one connection, borrow it, put it back, borrow it again —
every health check passing. -/
def reborrowOps : List PoolOp :=
  [.prewarm true, .get [true] true, .release 0 true, .get [true] true]

/-! ## Theorems -/

/-- When `intercept_auth_command` reports `was_intercepted = False`, the
bytes it returns are the unmodified `data` argument: every non-rewriting
path of the function ends in `return data, False` (including the
catch-all `except`). -/
theorem intercept_passthrough (cfg : Config) (data : List Nat)
    (h : (intercept cfg data).2 = false) : (intercept cfg data).1 = data := by
  unfold intercept at h ⊢
  simp only [] at h ⊢
  split_ifs at h ⊢ <;> simp_all

/-- A recognized frame (one from which a provided password is extracted)
whose password differs from the proxy password is answered with the
literal error reply and `was_intercepted = True`. -/
theorem intercept_rejects (cfg : Config) (data : List Nat) (pw : List Nat)
    (hp : providedPassword (utf8DecodeIgnore data) = some pw)
    (hne : pw ≠ cfg.proxy_password) : intercept cfg data = (errBytes, true) := by
  unfold providedPassword at hp
  unfold intercept
  simp only [] at hp ⊢
  split_ifs at hp ⊢ <;> simp_all

/-- A buffer from which a password is extracted is nonempty. -/
theorem provided_ne_nil (data : List Nat) (pw : List Nat)
    (hp : providedPassword (utf8DecodeIgnore data) = some pw) : data ≠ [] := by
  intro hd
  subst hd
  rw [show providedPassword (utf8DecodeIgnore []) = none from rfl] at hp
  exact Option.noConfusion hp

/-- On a recognized frame with a wrong password, `forward_data` sends the
error reply back to the client and breaks out of the loop: nothing from
that buffer (or any later one) reaches upstream. -/
theorem forward_stops (cfg : Config) (data : List Nat) (pw : List Nat)
    (rest : List (List Nat))
    (hp : providedPassword (utf8DecodeIgnore data) = some pw)
    (hne : pw ≠ cfg.proxy_password) :
    forwardData cfg (data :: rest) = ([], some errBytes) := by
  have hi := intercept_rejects cfg data pw hp hne
  have hd := provided_ne_nil data pw hp
  unfold forwardData
  rw [if_neg hd]
  simp only [hi, show isPre (cp "-ERR") errBytes = true from rfl]
  rfl

/-- C1: the claim states that a well-formed `*2\r\n$4\r\nAUTH\r\n$<n>\r\n<pw>\r\n`
frame whose password equals the proxy password is rewritten to the
three-element upstream AUTH frame.  The code disagrees: splitting the
canonical frame `*2\r\n$4\r\nAUTH\r\n$6\r\nsecret\r\n` on CRLF yields six
parts whose index 5 is the empty string after the trailing CRLF (the
password is at index 4), so `provided_password = parts[5] = ""` never
equals the (necessarily non-empty) proxy password and the frame is
rejected with `-ERR invalid password\r\n` instead of being rewritten.
The sibling `*3` and HELLO branches index from the end (`len-2`), which
is the evident intent; `parts[5]` is an off-by-one slip. -/
theorem C1_auth_password_frame_rejected :
    intercept cfgSecret auth2Frame = (errBytes, true) ∧ errBytes ≠ rewrittenFrame := by
  decide

/-- C2 counterexample: interception is not one-shot.  After a first
buffer on which the interceptor reports `intercepted = true` (a
successful `*3` AUTH rewrite), an identical second buffer is rewritten
again by `forward_data` rather than forwarded verbatim: upstream receives
the rewritten frame, which differs from the client's bytes. -/
theorem C2_second_auth_rewritten_again :
    (intercept cfgSecret auth3Frame).2 = true ∧
      forwardData cfgSecret [auth3Frame, auth3Frame] =
        ([rewrittenFrame, rewrittenFrame], none) ∧
      rewrittenFrame ≠ auth3Frame := by decide

/-- C2 (amended): `forward_data` keeps no per-session flag; every
client→upstream buffer is passed through `intercept_auth_command`, and
whenever the result is not the `-ERR` reply the (possibly rewritten)
output is what reaches upstream — a buffer matching an AUTH/HELLO
pattern is rewritten every time it occurs, and non-matching buffers pass
through unmodified. -/
theorem C2_forward_applies_intercept_each_buffer (cfg : Config)
    (bufs : List (List Nat))
    (h : ∀ b ∈ bufs, b ≠ [] ∧
      ((intercept cfg b).2 && isPre (cp "-ERR") (intercept cfg b).1) = false) :
    forwardData cfg bufs = (bufs.map fun b => (intercept cfg b).1, none) := by
  induction bufs with
  | nil => rfl
  | cons b rest ih =>
    have hb := h b (List.mem_cons_self b rest)
    unfold forwardData
    rw [if_neg hb.1]
    simp only [hb.2]
    simp only [Bool.false_eq_true, if_false]
    rw [ih fun x hx => h x (List.mem_cons_of_mem b hx)]
    rfl

/-- C2 witness: a session of a PING and a matching `*3` AUTH frame
satisfies the hypotheses, and upstream receives exactly the per-buffer
interceptor outputs. -/
theorem C2_forward_applies_intercept_each_buffer_witness :
    (∀ b ∈ [cp "PING\r\n", auth3Frame], b ≠ [] ∧
      ((intercept cfgSecret b).2 && isPre (cp "-ERR") (intercept cfgSecret b).1) = false) ∧
    forwardData cfgSecret [cp "PING\r\n", auth3Frame] =
      ([cp "PING\r\n", auth3Frame].map fun b => (intercept cfgSecret b).1, none) :=
  ⟨by decide, C2_forward_applies_intercept_each_buffer cfgSecret
    [cp "PING\r\n", auth3Frame] (by decide)⟩

/-- C3 counterexample: the claim says the command token is matched
case-insensitively for every supported frame shape.  The three-element
AUTH pattern `'*3\r\n$4\r\nAUTH\r\n' in data_str` is searched in the
un-lowered string, so the same frame is intercepted with uppercase
`AUTH` but passed through untouched with lowercase `auth`. -/
theorem C3_lowercase_auth_not_recognized :
    (intercept cfgSecret auth3Frame).2 = true ∧
      (intercept cfgSecret auth3FrameLower).2 = false := by decide

/-- C3 (amended): only the HELLO branch matches its command tokens
case-insensitively (the detection substrings are searched in the
lowercased buffer, so the all-uppercase and all-lowercase casings of the
HELLO scenario frame are treated alike — both intercepted, rewritten
under the matching proxy password and rejected under a different one);
the two- and three-element AUTH patterns are byte-exact, so the
lowercase `auth` frames pass through unchanged under every
configuration.  Bulk payloads compare byte-exactly. -/
theorem C3_case_sensitivity_characterization :
    (∀ cfg : Config, intercept cfg auth2FrameLower = (auth2FrameLower, false) ∧
        intercept cfg auth3FrameLower = (auth3FrameLower, false)) ∧
      ((intercept cfgSecret helloFrameUpper).2 = true ∧
        (intercept cfgSecret helloFrameLower).2 = true ∧
        (intercept cfgSecret helloFrameUpper).1 ≠ errBytes ∧
        (intercept cfgSecret helloFrameLower).1 ≠ errBytes ∧
        intercept cfgOther helloFrameUpper = (errBytes, true) ∧
        intercept cfgOther helloFrameLower = (errBytes, true)) :=
  ⟨fun _ => ⟨rfl, rfl⟩, by decide⟩

/-- C4: for every recognized AUTH/HELLO frame whose provided password
differs from the configured proxy password, `intercept_auth_command`
returns exactly `-ERR invalid password\r\n` with `intercepted = true`,
and `forward_data` writes that reply back to the client and breaks
before forwarding, so upstream observes zero bytes from that buffer. -/
theorem C4_wrong_password_rejected_before_forwarding (cfg : Config)
    (data pw : List Nat) (rest : List (List Nat))
    (hp : providedPassword (utf8DecodeIgnore data) = some pw)
    (hne : pw ≠ cfg.proxy_password) :
    intercept cfg data = (errBytes, true) ∧
      forwardData cfg (data :: rest) = ([], some errBytes) :=
  ⟨intercept_rejects cfg data pw hp hne, forward_stops cfg data pw rest hp hne⟩

/-- C4 witness: the scenario-3-style frame with password `wrong` under
the `secret` configuration. -/
theorem C4_wrong_password_rejected_before_forwarding_witness :
    providedPassword (utf8DecodeIgnore auth3FrameWrong) = some (cp "wrong") ∧
      cp "wrong" ≠ cfgSecret.proxy_password ∧
      intercept cfgSecret auth3FrameWrong = (errBytes, true) ∧
      forwardData cfgSecret (auth3FrameWrong :: [cp "PING\r\n"]) = ([], some errBytes) :=
  ⟨by decide, by decide,
    (C4_wrong_password_rejected_before_forwarding cfgSecret auth3FrameWrong
      (cp "wrong") [cp "PING\r\n"] (by decide) (by decide)).1,
    (C4_wrong_password_rejected_before_forwarding cfgSecret auth3FrameWrong
      (cp "wrong") [cp "PING\r\n"] (by decide) (by decide)).2⟩

/-! ### Pool lemmas -/

/-- `statsLE` is reflexive. -/
theorem statsLE_refl (a : PoolStats) : statsLE a a := by
  unfold statsLE; omega

/-- `statsLE` is transitive. -/
theorem statsLE_trans {a b c : PoolStats} (h1 : statsLE a b) (h2 : statsLE b c) :
    statsLE a c := by
  unfold statsLE at *; omega

/-- The borrow loop only increments the cumulative counters. -/
theorem getLoop_statsLE (q : List Nat) (hs : List Bool) (st : PoolStats) :
    statsLE st (getLoop q hs st).2.2 := by
  induction q generalizing hs st with
  | nil => unfold getLoop; simp [statsLE] <;> omega
  | cons c t ih =>
    unfold getLoop
    simp only []
    split_ifs with h
    · simp [statsLE] <;> omega
    · exact statsLE_trans (by simp [statsLE] <;> omega) (ih hs.tail _)

/-- The borrow loop preserves `reused ≤ pool_hits` (it increments
`reused` only together with a `pool_hits` increment). -/
theorem getLoop_inv (q : List Nat) (hs : List Bool) (st : PoolStats)
    (h : st.reused ≤ st.poolHits) :
    (getLoop q hs st).2.2.reused ≤ (getLoop q hs st).2.2.poolHits := by
  induction q generalizing hs st with
  | nil => unfold getLoop; simpa using h
  | cons c t ih =>
    unfold getLoop
    simp only []
    split_ifs with hh
    · simp <;> omega
    · exact ih hs.tail _ (by simp <;> omega)

/-- The borrow loop only shrinks the idle queue. -/
theorem getLoop_len_le (q : List Nat) (hs : List Bool) (st : PoolStats) :
    (getLoop q hs st).2.1.length ≤ q.length := by
  induction q generalizing hs st with
  | nil => simp [getLoop]
  | cons c t ih =>
    unfold getLoop
    simp only []
    split_ifs with h
    · simp
    · exact Nat.le_trans (ih hs.tail _) (by simp)

/-- The borrow loop keeps `current_size` equal to the queue length:
every pop decrements both together. -/
theorem getLoop_size_eq (q : List Nat) (hs : List Bool) (st : PoolStats)
    (h : st.currentSize = (q.length : Int)) :
    (getLoop q hs st).2.2.currentSize = ((getLoop q hs st).2.1.length : Int) := by
  induction q generalizing hs st with
  | nil => simpa [getLoop] using h
  | cons c t ih =>
    unfold getLoop
    simp only []
    split_ifs with hh
    · simp at h ⊢ <;> omega
    · refine ih hs.tail _ ?_
      simp at h ⊢ <;> omega

/-- The maintenance sweep only increments the cumulative counters. -/
theorem cleanupLoop_statsLE (m : Nat) (rest : List Nat) (hs : List Bool) (q : List Nat)
    (st : PoolStats) : statsLE st (cleanupLoop m rest hs q st).2 := by
  induction rest generalizing hs q st with
  | nil => unfold cleanupLoop; exact statsLE_refl st
  | cons c t ih =>
    unfold cleanupLoop
    split_ifs with h1 h2
    · exact ih hs.tail _ _
    · exact ih hs.tail _ _
    · exact statsLE_trans (by simp [statsLE] <;> omega) (ih hs.tail _ _)

/-- The maintenance sweep touches neither `reused` nor `pool_hits`. -/
theorem cleanupLoop_hits_reused (m : Nat) (rest : List Nat) (hs : List Bool) (q : List Nat)
    (st : PoolStats) :
    (cleanupLoop m rest hs q st).2.reused = st.reused ∧
      (cleanupLoop m rest hs q st).2.poolHits = st.poolHits := by
  induction rest generalizing hs q st with
  | nil => unfold cleanupLoop; exact ⟨rfl, rfl⟩
  | cons c t ih =>
    unfold cleanupLoop
    split_ifs with h1 h2
    · exact ih hs.tail _ _
    · exact ih hs.tail _ _
    · simpa using ih hs.tail _ _

/-- The maintenance sweep preserves `current_size = queue length` and the
capacity bound, provided the drained connections fit the capacity (which
they do, having come out of the bounded queue): the `QueueFull` branch —
which loses a `current_size` decrement — is then unreachable. -/
theorem cleanupLoop_atRest (m : Nat) (rest : List Nat) (hs : List Bool) (q : List Nat)
    (st : PoolStats) (hb : q.length + rest.length ≤ m)
    (he : st.currentSize = ((q.length + rest.length : Nat) : Int)) :
    (cleanupLoop m rest hs q st).2.currentSize = ((cleanupLoop m rest hs q st).1.length : Int) ∧
      (cleanupLoop m rest hs q st).1.length ≤ m := by
  induction rest generalizing hs q st with
  | nil => unfold cleanupLoop; constructor <;> simp_all
  | cons c t ih =>
    unfold cleanupLoop
    have hlt : q.length < m := by simp at hb; omega
    split_ifs with h1 h2
    · refine ih hs.tail _ _ ?_ ?_ <;> simp_all <;> omega
    · simp at h2; omega
    · refine ih hs.tail _ _ ?_ ?_ <;> simp_all <;> omega

/-- The maintenance sweep never grows the queue past the capacity it was
drained from. -/
theorem cleanupLoop_len (m : Nat) (rest : List Nat) (hs : List Bool) (q : List Nat)
    (st : PoolStats) (hb : q.length + rest.length ≤ m) :
    (cleanupLoop m rest hs q st).1.length ≤ m := by
  induction rest generalizing hs q st with
  | nil => unfold cleanupLoop; simp at hb ⊢; omega
  | cons c t ih =>
    unfold cleanupLoop
    split_ifs with h1 h2
    · refine ih hs.tail _ _ ?_; simp at hb ⊢; omega
    · refine ih hs.tail _ _ ?_; simp at hb ⊢; omega
    · refine ih hs.tail _ _ ?_; simp at hb ⊢; omega

/-- No pool operation changes the configured capacity. -/
theorem stepState_size (s : PoolState) (op : PoolOp) : (stepState s op).size = s.size := by
  cases op with
  | prewarm ok => simp only [stepState, prewarmStep]; split_ifs <;> rfl
  | get hs c =>
    rcases hg : getLoop s.queue hs s.stats with ⟨r, q, st⟩
    simp only [stepState, poolGet, hg]
    cases r <;> split_ifs <;> rfl
  | release c h => simp only [stepState, releaseStep]; split_ifs <;> rfl
  | maintenance hs => rfl
  | shutdown => rfl

/-- Every pool operation only increments the cumulative counters. -/
theorem stepState_statsLE (s : PoolState) (op : PoolOp) :
    statsLE s.stats (stepState s op).stats := by
  cases op with
  | prewarm ok =>
    simp only [stepState, prewarmStep]
    split_ifs <;> simp [statsLE] <;> omega
  | get hs c =>
    rcases hg : getLoop s.queue hs s.stats with ⟨r, q, st⟩
    have h1 : statsLE s.stats st := by
      have := getLoop_statsLE s.queue hs s.stats
      rwa [hg] at this
    simp only [stepState, poolGet, hg]
    cases r with
    | some c0 => simpa using h1
    | none =>
      split_ifs
      · exact statsLE_trans h1 (by simp [statsLE] <;> omega)
      · simpa using h1
  | release c h =>
    simp only [stepState, releaseStep]
    split_ifs <;> simp [statsLE] <;> omega
  | maintenance hs =>
    simp only [stepState, maintenanceStep]
    exact cleanupLoop_statsLE s.size s.queue hs [] s.stats
  | shutdown => exact statsLE_refl s.stats

/-- Every pool operation preserves `reused ≤ pool_hits`. -/
theorem stepState_inv (s : PoolState) (op : PoolOp)
    (h : s.stats.reused ≤ s.stats.poolHits) :
    (stepState s op).stats.reused ≤ (stepState s op).stats.poolHits := by
  cases op with
  | prewarm ok => simp only [stepState, prewarmStep]; split_ifs <;> simpa using h
  | get hs c =>
    rcases hg : getLoop s.queue hs s.stats with ⟨r, q, st⟩
    have h1 : st.reused ≤ st.poolHits := by
      have := getLoop_inv s.queue hs s.stats h
      rwa [hg] at this
    simp only [stepState, poolGet, hg]
    cases r with
    | some c0 => simpa using h1
    | none => split_ifs <;> simpa using h1
  | release c hh => simp only [stepState, releaseStep]; split_ifs <;> simpa using h
  | maintenance hs =>
    simp only [stepState, maintenanceStep]
    have := cleanupLoop_hits_reused s.size s.queue hs [] s.stats
    omega
  | shutdown => exact h

/-- Every pool operation keeps the idle queue within capacity (for a
bounded pool, `1 ≤ size`). -/
theorem stepState_bound (s : PoolState) (op : PoolOp) (hm : 1 ≤ s.size)
    (hb : s.queue.length ≤ s.size) : (stepState s op).queue.length ≤ s.size := by
  cases op with
  | prewarm ok =>
    simp only [stepState, prewarmStep, putOk]
    split_ifs with h1 h2
    · simp at h2 ⊢; omega
    · exact hb
    · exact hb
  | get hs c =>
    rcases hg : getLoop s.queue hs s.stats with ⟨r, q, st⟩
    have hl : q.length ≤ s.queue.length := by
      have := getLoop_len_le s.queue hs s.stats
      rwa [hg] at this
    simp only [stepState, poolGet, hg]
    cases r with
    | some c0 => simp; omega
    | none => split_ifs <;> simp <;> omega
  | release c hh =>
    simp only [stepState, releaseStep, putOk]
    split_ifs with h1 h2
    · exact hb
    · simp at h2 ⊢; omega
    · exact hb
  | maintenance hs =>
    simp only [stepState, maintenanceStep]
    exact cleanupLoop_len s.size s.queue hs [] s.stats (by simpa using hb)
  | shutdown => simp [stepState, shutdownStep]

/-- Every pool operation other than shutdown preserves
`current_size = queue length` at rest. -/
theorem stepState_eq (s : PoolState) (op : PoolOp) (hm : 1 ≤ s.size)
    (hb : s.queue.length ≤ s.size)
    (he : s.stats.currentSize = (s.queue.length : Int))
    (hop : op ≠ PoolOp.shutdown) :
    (stepState s op).stats.currentSize = ((stepState s op).queue.length : Int) := by
  cases op with
  | prewarm ok =>
    simp only [stepState, prewarmStep]
    split_ifs <;> simp_all
  | get hs c =>
    rcases hg : getLoop s.queue hs s.stats with ⟨r, q, st⟩
    have h1 : st.currentSize = (q.length : Int) := by
      have := getLoop_size_eq s.queue hs s.stats he
      rwa [hg] at this
    simp only [stepState, poolGet, hg]
    cases r with
    | some c0 => simpa using h1
    | none => split_ifs <;> simpa using h1
  | release c hh =>
    simp only [stepState, releaseStep]
    split_ifs <;> simp_all
  | maintenance hs =>
    simp only [stepState, maintenanceStep]
    have := cleanupLoop_atRest s.size s.queue hs [] s.stats (by simpa using hb)
      (by simpa using he)
    exact this.1
  | shutdown => exact absurd rfl hop

/-- Counters only grow along any operation sequence. -/
theorem runOps_statsLE (s : PoolState) (ops : List PoolOp) :
    statsLE s.stats (runOps s ops).stats := by
  induction ops generalizing s with
  | nil => exact statsLE_refl _
  | cons op t ih => exact statsLE_trans (stepState_statsLE s op) (ih (stepState s op))

/-- `reused ≤ pool_hits` holds along any operation sequence. -/
theorem runOps_inv (s : PoolState) (ops : List PoolOp)
    (h : s.stats.reused ≤ s.stats.poolHits) :
    (runOps s ops).stats.reused ≤ (runOps s ops).stats.poolHits := by
  induction ops generalizing s with
  | nil => exact h
  | cons op t ih => exact ih (stepState s op) (stepState_inv s op h)

/-- The capacity is constant along any operation sequence. -/
theorem runOps_size (s : PoolState) (ops : List PoolOp) : (runOps s ops).size = s.size := by
  induction ops generalizing s with
  | nil => rfl
  | cons op t ih => exact (ih (stepState s op)).trans (stepState_size s op)

/-- The idle queue stays within capacity along any operation sequence. -/
theorem runOps_bound (s : PoolState) (ops : List PoolOp) (hm : 1 ≤ s.size)
    (hb : s.queue.length ≤ s.size) : (runOps s ops).queue.length ≤ s.size := by
  induction ops generalizing s with
  | nil => exact hb
  | cons op t ih =>
    have h1 := ih (stepState s op) (by rw [stepState_size]; exact hm)
      (by rw [stepState_size]; exact stepState_bound s op hm hb)
    rwa [stepState_size] at h1

/-- `current_size = queue length` holds after any shutdown-free operation
sequence. -/
theorem runOps_atRest (s : PoolState) (ops : List PoolOp) (hm : 1 ≤ s.size)
    (hb : s.queue.length ≤ s.size)
    (he : s.stats.currentSize = (s.queue.length : Int))
    (hops : ∀ op ∈ ops, op ≠ PoolOp.shutdown) :
    (runOps s ops).stats.currentSize = ((runOps s ops).queue.length : Int) := by
  induction ops generalizing s with
  | nil => exact he
  | cons op t ih =>
    exact ih (stepState s op) (by rw [stepState_size]; exact hm)
      (by rw [stepState_size]; exact stepState_bound s op hm hb)
      (stepState_eq s op hm hb he (hops op (List.mem_cons_self op t)))
      fun x hx => hops x (List.mem_cons_of_mem op hx)

/-- C5 counterexample: `pool_hits ≤ created` fails on the code.  A
connection created once (by prewarm) can be borrowed, released and
borrowed again: each borrow from the queue increments `pool_hits`, but
`created` counts only creations, so after the re-borrow sequence
`pool_hits = 2 > 1 = created`. -/
theorem C5_pool_hits_can_exceed_created :
    ¬((runOps (freshPool 4) reborrowOps).stats.poolHits ≤
      (runOps (freshPool 4) reborrowOps).stats.created) := by decide

/-- C5 (amended): over every operation sequence from a fresh pool, each
of the six cumulative counters is monotonically nondecreasing (any
extension of the sequence only grows them), and `reused ≤ pool_hits`
holds at every point; the claimed `pool_hits ≤ created` does not hold in
general. -/
theorem C5_counters_monotone_and_reused_le_hits (m : Nat) (ops extra : List PoolOp) :
    statsLE (runOps (freshPool m) ops).stats (runOps (freshPool m) (ops ++ extra)).stats ∧
      (runOps (freshPool m) ops).stats.reused ≤ (runOps (freshPool m) ops).stats.poolHits := by
  constructor
  · have e : runOps (freshPool m) (ops ++ extra) = runOps (runOps (freshPool m) ops) extra := by
      simp [runOps, List.foldl_append]
    rw [e]
    exact runOps_statsLE _ extra
  · exact runOps_inv (freshPool m) ops (by simp [freshPool])

/-- C6: `_is_connection_healthy` returns false whenever the writer is
closing or `SO_ERROR` is nonzero; otherwise (for a pooled connection,
whose transport exposes its socket) the PING probe is written and the
check returns true iff the bytes read back equal `+PONG\r\n` exactly —
an I/O error or timeout (reply `none`) gives false.  The function never
raises: it is total on every probe state. -/
theorem C6_health_check_characterization (c : ConnProbe) (hsock : c.sockPresent = true) :
    isConnectionHealthy c =
        (!c.closing && decide (c.soError = 0) && decide (c.pingReply = some pongBytes)) ∧
      healthCheckPingSent c = (!c.closing && decide (c.soError = 0)) := by
  rcases c with ⟨cl, sp, se, pr⟩
  simp only at hsock
  subst hsock
  unfold isConnectionHealthy healthCheckPingSent
  cases cl <;> rcases pr with _ | r <;> by_cases h : se = 0 <;> simp [h] <;>
    by_cases hr : r = pongBytes <;> simp [hr]

/-- C6 witness: a quiescent healthy connection answering `+PONG\r\n`. -/
theorem C6_health_check_characterization_witness :
    (ConnProbe.mk false true 0 (some pongBytes)).sockPresent = true ∧
      (isConnectionHealthy (ConnProbe.mk false true 0 (some pongBytes)) =
          (!(ConnProbe.mk false true 0 (some pongBytes)).closing &&
            decide ((ConnProbe.mk false true 0 (some pongBytes)).soError = 0) &&
            decide ((ConnProbe.mk false true 0 (some pongBytes)).pingReply = some pongBytes)) ∧
        healthCheckPingSent (ConnProbe.mk false true 0 (some pongBytes)) =
          (!(ConnProbe.mk false true 0 (some pongBytes)).closing &&
            decide ((ConnProbe.mk false true 0 (some pongBytes)).soError = 0))) :=
  ⟨rfl, C6_health_check_characterization (ConnProbe.mk false true 0 (some pongBytes)) rfl⟩

/-- C7: a borrow from an empty idle queue increments `pool_misses`; if
connection creation succeeds a fresh connection is returned and
`created` is incremented; if creation fails the borrow raises a
connection error, no connection is returned, and `created` is
unchanged. -/
theorem C7_empty_queue_borrow (s : PoolState) (hs : List Bool) (createOk : Bool)
    (hq : s.queue = []) :
    (poolGet hs createOk s).2.stats.poolMisses = s.stats.poolMisses + 1 ∧
      (createOk = true → (poolGet hs createOk s).1 = Except.ok s.nextId ∧
        (poolGet hs createOk s).2.stats.created = s.stats.created + 1) ∧
      (createOk = false → (poolGet hs createOk s).1 = Except.error PoolError.connectionError ∧
        (poolGet hs createOk s).2.stats.created = s.stats.created) := by
  simp only [poolGet, hq, getLoop]
  cases createOk <;> simp

/-- C7 witness: borrowing from a fresh (empty) pool with creation
succeeding. -/
theorem C7_empty_queue_borrow_witness :
    (freshPool 3).queue = [] ∧
      ((poolGet [] true (freshPool 3)).2.stats.poolMisses = (freshPool 3).stats.poolMisses + 1 ∧
        (true = true → (poolGet [] true (freshPool 3)).1 = Except.ok (freshPool 3).nextId ∧
          (poolGet [] true (freshPool 3)).2.stats.created = (freshPool 3).stats.created + 1) ∧
        (true = false → (poolGet [] true (freshPool 3)).1 = Except.error PoolError.connectionError ∧
          (poolGet [] true (freshPool 3)).2.stats.created = (freshPool 3).stats.created)) :=
  ⟨rfl, C7_empty_queue_borrow (freshPool 3) [] true rfl⟩

/-- C8 counterexample: shutdown drains the idle queue closing every
connection but never updates `current_size` (`pool.py:68-74` has no
stats mutation), so after `prewarm; shutdown` the counter reads 1 while
the queue is empty. -/
theorem C8_shutdown_breaks_current_size :
    (runOps (freshPool 4) [PoolOp.prewarm true, PoolOp.shutdown]).stats.currentSize ≠
      ((runOps (freshPool 4) [PoolOp.prewarm true, PoolOp.shutdown]).queue.length : Int) := by
  decide

/-- C8 (amended): for a bounded pool (`pool_max ≥ 1`), the idle queue
never exceeds `pool_max` after any operation sequence, and after every
sequence of get/release/prewarm/maintenance operations (no shutdown)
`current_size` equals the idle-queue length; shutdown empties the queue
without updating `current_size`, breaking the equality. -/
theorem C8_current_size_tracks_queue (m : Nat) (ops : List PoolOp) (hm : 1 ≤ m) :
    (runOps (freshPool m) ops).queue.length ≤ m ∧
      ((∀ op ∈ ops, op ≠ PoolOp.shutdown) →
        (runOps (freshPool m) ops).stats.currentSize =
          ((runOps (freshPool m) ops).queue.length : Int)) := by
  constructor
  · exact runOps_bound (freshPool m) ops hm (by simp [freshPool])
  · intro hops
    exact runOps_atRest (freshPool m) ops hm (by simp [freshPool]) (by simp [freshPool]) hops

/-- C8 witness: a prewarm / borrow / release / maintenance sequence on a
pool of capacity 2. -/
theorem C8_current_size_tracks_queue_witness :
    1 ≤ 2 ∧
      ((runOps (freshPool 2) reborrowOps).queue.length ≤ 2 ∧
        ((∀ op ∈ reborrowOps, op ≠ PoolOp.shutdown) →
          (runOps (freshPool 2) reborrowOps).stats.currentSize =
            ((runOps (freshPool 2) reborrowOps).queue.length : Int))) :=
  ⟨by decide, C8_current_size_tracks_queue 2 reborrowOps (by decide)⟩

/-- C9: `intercept_auth_command` is total: on every byte string —
non-UTF-8 binary included — it returns a pair, and every path that does
not intercept (the parse fall-throughs and the catch-all `except`)
returns the original bytes with `intercepted = false`: the result is
either exactly `(data, false)` or carries `intercepted = true`. -/
theorem C9_intercept_total (cfg : Config) (data : List Nat) :
    intercept cfg data = (data, false) ∨ (intercept cfg data).2 = true := by
  cases h : (intercept cfg data).2
  · left
    have h1 := intercept_passthrough cfg data h
    cases e : intercept cfg data with
    | mk a b =>
      rw [e] at h h1
      simp only at h h1
      rw [h, h1]
  · right; rfl

/-- C10: whenever `intercept_auth_command` reports `intercepted = false`
the returned bytes are exactly the input bytes — byte-for-byte identity,
independent of what the lossy UTF-8 decode produced, because every
non-intercepting path returns the original `data` object. -/
theorem C10_not_intercepted_is_identity (cfg : Config) (data : List Nat)
    (h : (intercept cfg data).2 = false) : (intercept cfg data).1 = data :=
  intercept_passthrough cfg data h

/-- C10 witness: a buffer with no AUTH/HELLO pattern passes through
unchanged. -/
theorem C10_not_intercepted_is_identity_witness :
    (intercept cfgSecret (cp "PING\r\n")).2 = false ∧
      (intercept cfgSecret (cp "PING\r\n")).1 = cp "PING\r\n" :=
  ⟨by decide, C10_not_intercepted_is_identity cfgSecret (cp "PING\r\n") (by decide)⟩

end RedisProxy
